import Mathlib

/-
Verification development for the FResp frequency-response measurement tool.

The definitions below are a shallow embedding of the core algorithmic code:
  * Oscilloscope.cpp : attenuation (volts/div) tables, AdjustChannelVolts,
    SetTimebase, Measure / MeasureDelay reply parsing
  * SineGenerator.cpp : CoercePhase
  * FreqResp.cpp : MeasureAndScaleInput classifier, the per-frequency
    auto-ranging loop of MeasureFreq, and the sweep state machine
    (Init / MeasureNext / Sweep / Close)
C++ doubles are modelled as real numbers (ℝ) where the code computes with
transcendental functions, and as rationals (ℚ) where all constants are exact
decimals; a possibly-NaN double is modelled as Option ℚ / Option ℝ with
none standing for the quiet-NaN sentinel (every IEEE comparison against NaN
is false, which the w-comparisons below reproduce).
-/

/-! ## Attenuation tables (Oscilloscope.cpp, VoltagePairs)

Each table lists the volts-per-division values in table order; the protocol
token strings are irrelevant to the claims and omitted.  N_VOLTAGE_PAIRS = 14. -/

/-- Volts/div values of the 1x attenuation table (Oscilloscope.cpp lines 35-51). -/
def voltsTable1x : List ℚ :=
  [1/2000, 1/1000, 1/500, 1/200, 1/100, 1/50, 1/20, 1/10, 1/5, 1/2, 1, 2, 5, 10]

/-- Volts/div values of the 10x attenuation table (Oscilloscope.cpp lines 52-68). -/
def voltsTable10x : List ℚ :=
  [1/200, 1/100, 1/50, 1/20, 1/10, 1/5, 1/2, 1, 2, 5, 10, 20, 50, 100]

/-- Number of vertical divisions across the screen (Oscilloscope.cpp, nVoltageDivisions). -/
def nVoltageDivisions : ℚ := 8

/-! ## AdjustChannelVolts (Oscilloscope.cpp lines 964-1072)

The function queries the current volts/div setting, finds the closest table
entry, moves by the requested number of steps clamping to the table range,
and returns the (supposedly) actually-applied step count.  We embed the
index arithmetic exactly, over the queried volts/div value. -/

/-- Initial clamp of the requested adjustment to -3..3
(Oscilloscope.cpp lines 981-984). -/
def clampAdjust (a : ℤ) : ℤ :=
  let a1 := if a < -3 then -3 else a
  if a1 > 3 then 3 else a1

/-- Scan of the voltage table for the entry closest (by absolute difference)
to the current volts/div value; mirrors the loop at Oscilloscope.cpp
lines 1032-1041 with vDeltaClose starting at infinity (modelled as none)
and iChoose starting at -1. -/
def closestScan (v : ℚ) : List ℚ → ℤ → Option (ℚ × ℤ) → Option (ℚ × ℤ)
  | [], _, best => best
  | x :: xs, i, best =>
      let d := |v - x|
      let best1 := match best with
        | none => some (d, i)
        | some (bd, bi) => if d < bd then some (d, i) else some (bd, bi)
      closestScan v xs (i + 1) best1

/-- Index of the closest table entry, -1 when the table is empty
(the iChoose variable right before line 1043). -/
def closestIdx (table : List ℚ) (v : ℚ) : ℤ :=
  match closestScan v table 0 none with
  | some (_, i) => i
  | none => -1

/-- Embedding of the index-adjustment path of AdjustChannelVolts
(Oscilloscope.cpp lines 964-1072) for a channel whose attenuation matched
one of the two tables and whose scale queries succeeded: the first result
component is the volts/div value after the call, the second the returned
"actual adjustment steps" value.  Note the upper clamp at lines 1052-1056
subtracts (iChoose - nVoltagePairs), with nVoltagePairs = 14. -/
def adjustVolts (table : List ℚ) (vdiv : ℚ) (adjust : ℤ) : ℚ × ℤ :=
  let a := clampAdjust adjust
  if a = 0 then (vdiv, a)
  else
    let i0 := closestIdx table vdiv
    if i0 ≥ 0 then
      let c1 := i0 + a
      let p1 := if c1 < 0 then (a - c1, (0 : ℤ)) else (a, c1)
      let p2 := if p1.2 > 13 then (p1.1 - (p1.2 - 14), (13 : ℤ)) else (p1.1, p1.2)
      (table.getD p2.2.toNat vdiv, p2.1)
    else (vdiv, a)

/-! ## Auto-range classifier (FreqResp.cpp lines 30-37 and 582-602) -/

/-- SEEK_MAX constant (FreqResp.cpp line 31). -/
def SEEK_MAX : ℚ := 1.000

/-- SEEK_MID constant (FreqResp.cpp line 32). -/
def SEEK_MID : ℚ := 0.390

/-- SEEK_MIN constant (FreqResp.cpp line 33). -/
def SEEK_MIN : ℚ := 0.200

/-- SEEK_MARGIN constant (FreqResp.cpp line 34). -/
def SEEK_MARGIN : ℚ := 0.0275

/-- Strict greater-than against a possibly-NaN reading: false when the
reading is NaN, exactly as the IEEE comparison in the source. -/
def wgt (m : Option ℚ) (x : ℚ) : Bool :=
  match m with
  | some v => decide (x < v)
  | none => false

/-- Strict less-than against a possibly-NaN reading: false when the
reading is NaN. -/
def wlt (m : Option ℚ) (x : ℚ) : Bool :=
  match m with
  | some v => decide (v < x)
  | none => false

/-- The threshold classification of MeasureAndScaleInput (FreqResp.cpp
lines 592-599): the requested adjustment as a function of the peak-to-peak
reading (possibly NaN) and the full-scale peak-to-peak voltage scale.pp. -/
def classifyAdjust (pkpk : Option ℚ) (pp : ℚ) : ℤ :=
  if wgt pkpk ((SEEK_MAX - SEEK_MARGIN) * pp) then 1
  else if wlt pkpk ((SEEK_MIN - SEEK_MARGIN) * pp) then -2
  else if wlt pkpk ((SEEK_MID - SEEK_MARGIN) * pp) then -1
  else 0

/-! ## Phase normalization (SineGenerator.cpp lines 136-141) -/

/-- CoercePhase wraps a phase in degrees into the interval 0 ≤ phase < 360
by the formula phase - 360*floor(phase/360). -/
noncomputable def CoercePhase (phase : ℝ) : ℝ :=
  phase - 360 * ⌊phase / 360⌋

/-! ## Per-channel auto-range step and the MeasureFreq convergence loop
(FreqResp.cpp lines 503-534 and 582-602) -/

/-- One MeasureAndScaleInput call (FreqResp.cpp lines 582-602) as a
function of the channel's attenuation table, its current volts/div and the
peak-to-peak reading (none = NaN): returns the volts/div after the call,
the applied adjustment stored back through the adjust reference, and
whether a scale-change command was sent to the instrument.  scale.pp is
the current volts/div times the vertical division count, as maintained by
AdjustChannelVolts (Oscilloscope.cpp line 1014). -/
def channelStep (table : List ℚ) (vdiv : ℚ) (pkpk : Option ℚ) : ℚ × ℤ × Bool :=
  let req := classifyAdjust pkpk (vdiv * nVoltageDivisions)
  if req = 0 then (vdiv, 0, false)
  else
    let r := adjustVolts table vdiv req
    (r.1, r.2, true)

/-- State carried across iterations of the MeasureFreq auto-ranging loop:
the two channels' volts/div settings, the previous applied adjustments
(adjust_in, adjust_out) and the alternate_count hunting counter. -/
structure LoopSt where
  vIn : ℚ
  vOut : ℚ
  lastIn : ℤ
  lastOut : ℤ
  alt : ℕ

/-- One iteration of the do-while body at FreqResp.cpp lines 509-534:
returns the state after the iteration and whether bLoopDone became true
(both adjustments zero, or alternate_count reached 3 after this round's
sign-flip check). -/
def loopIter (tIn tOut : List ℚ) (pIn pOut : Option ℚ) (s : LoopSt) : LoopSt × Bool :=
  let rIn := channelStep tIn s.vIn pIn
  let rOut := channelStep tOut s.vOut pOut
  let alt1 := if s.lastIn * rIn.2.1 < 0 ∨ s.lastOut * rOut.2.1 < 0 then s.alt + 1 else s.alt
  let ex : Bool := decide ((rIn.2.1 = 0 ∧ rOut.2.1 = 0) ∨ alt1 ≥ 3)
  (⟨rIn.1, rOut.1, rIn.2.1, rOut.2.1, alt1⟩, ex)

/-- Fuelled execution of the do-while loop, consuming the two reading
streams from index n on: some (finalState, exitIteration) when the loop
exits within fuel iterations, none otherwise. -/
def loopRun (tIn tOut : List ℚ) (pIn pOut : ℕ → Option ℚ) :
    ℕ → ℕ → LoopSt → Option (LoopSt × ℕ)
  | 0, _, _ => none
  | fuel + 1, n, s =>
      let r := loopIter tIn tOut (pIn n) (pOut n) s
      if r.2 then some (r.1, n) else loopRun tIn tOut pIn pOut fuel (n + 1) r.1

/-- State of the loop entering iteration n, ignoring exits. -/
def loopStateAt (tIn tOut : List ℚ) (pIn pOut : ℕ → Option ℚ) (s0 : LoopSt) : ℕ → LoopSt
  | 0 => s0
  | n + 1 => (loopIter tIn tOut (pIn n) (pOut n) (loopStateAt tIn tOut pIn pOut s0 n)).1

/-- Whether the exit condition of the loop holds at iteration n. -/
def loopExitAt (tIn tOut : List ℚ) (pIn pOut : ℕ → Option ℚ) (s0 : LoopSt) (n : ℕ) : Bool :=
  (loopIter tIn tOut (pIn n) (pOut n) (loopStateAt tIn tOut pIn pOut s0 n)).2

/-- Termination of the auto-ranging loop on the given reading streams. -/
def loopTerminates (tIn tOut : List ℚ) (pIn pOut : ℕ → Option ℚ) (s0 : LoopSt) : Prop :=
  ∃ fuel r, loopRun tIn tOut pIn pOut fuel 0 s0 = some r

/-- Reading stream of a channel whose signal is overdriven: the
peak-to-peak reading stays at 100 V. -/
def pinnedHigh : ℕ → Option ℚ := fun _ => some 100

/-- Reading stream of a channel sitting inside the converged band of the
1 V/div scale (4 V peak-to-peak against a full scale of 8 V). -/
def midBand : ℕ → Option ℚ := fun _ => some 4

/-- Loop entry state with the input channel already at the top of the 1x
table (10 V/div) and the output channel at 1 V/div. -/
def stuckS0 : LoopSt := ⟨10, 1, 0, 0, 0⟩

/-- Invariant maintained by the pinned-high run: scales never move, the
hunting counter never advances, the last input adjustment is
non-negative. -/
def StuckInv (s : LoopSt) : Prop :=
  s.vIn = 10 ∧ s.vOut = 1 ∧ 0 ≤ s.lastIn ∧ s.lastOut = 0 ∧ s.alt = 0

/-! ## Timebase selection (Oscilloscope.cpp lines 93-129, 153, 1215-1237) -/

/-- Seconds-per-division values of the TimePairs table, in table order. -/
def timeTable : List ℚ :=
  [1/1000000000, 2/1000000000, 5/1000000000,
   1/100000000, 2/100000000, 5/100000000,
   1/10000000, 2/10000000, 5/10000000,
   1/1000000, 2/1000000, 5/1000000,
   1/100000, 2/100000, 5/100000,
   1/10000, 2/10000, 5/10000,
   1/1000, 2/1000, 5/1000,
   1/100, 2/100, 5/100,
   1/10, 2/10, 5/10,
   1, 2, 5, 10, 20, 50, 100]

/-- Number of time divisions across the screen (Oscilloscope.cpp line 153). -/
def nTimeDivisions : ℚ := 14

/-- The scan at Oscilloscope.cpp lines 1220-1231: the last table entry is
preloaded as the default, then the loop over the first nTimePairs-1
entries takes the first one whose seconds/division is at least tdiv. -/
def pickTdiv (tdiv : ℚ) : ℚ :=
  match timeTable.dropLast.find? (fun s => decide (tdiv ≤ s)) with
  | some s => s
  | none => timeTable.getLastD 0

/-- Modelled from the claim wording, for comparison with pickTdiv: the
first (hence, the table being increasing, smallest) entry of the whole
ordered table whose value is at least the target, or the table's largest
entry when no entry satisfies the bound. -/
def pickTdivSpec (tdiv : ℚ) : ℚ :=
  (timeTable.find? (fun s => decide (tdiv ≤ s))).getD (timeTable.getLastD 0)

/-- SetTimebase(tcapture, delay) (Oscilloscope.cpp lines 1215-1237):
computes the per-division target tcapture / nTimeDivisions, picks the
table entry, writes it, and returns the actual total capture time, or the
NaN sentinel (modelled none) when the underlying write failed. -/
def setTimebaseCapture (tcapture : ℚ) (writeOk : Bool) : Option ℚ :=
  let tdiv := tcapture / nTimeDivisions
  let tactual := pickTdiv tdiv
  if writeOk then some (tactual * nTimeDivisions) else none

/-! ## Measurement reply parsing (Oscilloscope.cpp lines 1109-1181)

The reply regexes are hand-compiled into deterministic scanners over
character lists.  In each of them every character class is disjoint from
the delimiter that follows it (and a letters-run after the numeric field
can only trade E characters with it), so maximal-munch scanning accepts
the same strings as the regex. -/

/-- Decimal digit class. -/
def isDigitCh (c : Char) : Bool := decide ('0' ≤ c ∧ c ≤ '9')

/-- Upper-case letter class, for the measurement name field. -/
def isUpperCh (c : Char) : Bool := decide ('A' ≤ c ∧ c ≤ 'Z')

/-- Letter class, for the unit suffix of the delay reply. -/
def isLetterCh (c : Char) : Bool :=
  decide (('A' ≤ c ∧ c ≤ 'Z') ∨ ('a' ≤ c ∧ c ≤ 'z'))

/-- Characters admitted in the captured numeric field: 0-9 . E + - . -/
def isNumCh (c : Char) : Bool :=
  isDigitCh c || decide (c = '.' ∨ c = 'E' ∨ c = '+' ∨ c = '-')

/-- Channel digit class 1-4. -/
def isChanD (c : Char) : Bool := decide (c = '1' ∨ c = '2' ∨ c = '3' ∨ c = '4')

/-- Whitespace class of the regex \s (ECMAScript [ \t\n\v\f\r]). -/
def isSpaceCh (c : Char) : Bool :=
  decide (c = ' ' ∨ c = '\t' ∨ c = '\n' ∨ c = '\x0b' ∨ c = '\x0c' ∨ c = '\r')

/-- Literal-token consumer used for the measurement name spliced into the
delay reply regex. -/
def chompTok : List Char → List Char → Option (List Char)
  | [], r => some r
  | _ :: _, [] => none
  | c :: cs, x :: xs => if c = x then chompTok cs xs else none

/-- Matcher for the Measure reply regex at Oscilloscope.cpp line 1130
(caret C[1-4]:PAVA space, a measurement name, a comma, the captured
numeric field, a V or A unit, optional whitespace, end): on a full match
it returns the captured numeric field. -/
def matchPAVA (l : List Char) : Option (List Char) :=
  match l with
  | 'C' :: d :: ':' :: 'P' :: 'A' :: 'V' :: 'A' :: ' ' :: rest =>
      if isChanD d then
        let nm := rest.takeWhile isUpperCh
        match rest.dropWhile isUpperCh with
        | ',' :: r2 =>
            if nm = [] then none
            else
              let num := r2.takeWhile isNumCh
              match r2.dropWhile isNumCh with
              | u :: r4 =>
                  if num ≠ [] ∧ (u = 'V' ∨ u = 'A') ∧ r4.all isSpaceCh then some num
                  else none
              | [] => none
        | _ => none
      else none
  | _ => none

/-- Matcher for the MeasureDelay reply regex at Oscilloscope.cpp line 1174
(caret C[1-4]-C[1-4]:MEAD space, the queried measurement token, a comma,
the captured numeric field, an optional letters unit, optional whitespace,
end). -/
def matchMEAD (tok : List Char) (l : List Char) : Option (List Char) :=
  match l with
  | 'C' :: d1 :: '-' :: 'C' :: d2 :: ':' :: 'M' :: 'E' :: 'A' :: 'D' :: ' ' :: rest =>
      if isChanD d1 ∧ isChanD d2 then
        match chompTok tok rest with
        | some r1 =>
            match r1 with
            | ',' :: r2 =>
                let num := r2.takeWhile isNumCh
                let r3 := r2.dropWhile isNumCh
                let r4 := r3.dropWhile isLetterCh
                if num ≠ [] ∧ r4.all isSpaceCh then some num else none
            | _ => none
        | none => none
      else none
  | _ => none

/-- Numeric value of one digit character. -/
def digitVal (c : Char) : ℕ := c.toNat - '0'.toNat

/-- Accumulating decimal digit-string evaluation. -/
def natOfDigits : List Char → ℕ → ℕ
  | [], acc => acc
  | c :: cs, acc => natOfDigits cs (acc * 10 + digitVal c)

/-- Model of std::stod on the captured field: optional sign, decimal
mantissa with optional fraction part, optional exponent; none when no
conversion can be performed (the case in which the C++ call throws). -/
def stodQ (l : List Char) : Option ℚ :=
  let sg : ℚ × List Char :=
    match l with
    | '-' :: r => (-1, r)
    | '+' :: r => (1, r)
    | _ => (1, l)
  let ip := sg.2.takeWhile isDigitCh
  let r1 := sg.2.dropWhile isDigitCh
  let fj : List Char × List Char :=
    match r1 with
    | '.' :: r => (r.takeWhile isDigitCh, r.dropWhile isDigitCh)
    | _ => ([], r1)
  if ip = [] ∧ fj.1 = [] then none
  else
    let mant : ℚ := (natOfDigits ip 0 : ℚ) + (natOfDigits fj.1 0 : ℚ) / (10 : ℚ) ^ fj.1.length
    let ex : ℤ :=
      match fj.2 with
      | 'e' :: r => expVal r
      | 'E' :: r => expVal r
      | _ => 0
    some (sg.1 * mant * (10 : ℚ) ^ ex)
where
  /-- Signed exponent digits, 0 when absent or malformed (stod then stops
  before the exponent marker). -/
  expVal : List Char → ℤ
    | '-' :: r3 => -(natOfDigits (r3.takeWhile isDigitCh) 0 : ℤ)
    | '+' :: r3 => (natOfDigits (r3.takeWhile isDigitCh) 0 : ℤ)
    | r3 => (natOfDigits (r3.takeWhile isDigitCh) 0 : ℤ)

/-- Oscilloscope::Measure (lines 1109-1137) as a function of the raw query
reply: none reply = failed query.  Except.error models the std::stod
exception escaping when the regex matched but the captured field is not a
number; Except.ok none is the NaN sentinel DEFAULT_PARAM. -/
def measureParse (reply : Option (List Char)) : Except Unit (Option ℚ) :=
  match reply with
  | none => Except.ok none
  | some r =>
      match matchPAVA r with
      | none => Except.ok none
      | some num =>
          match stodQ num with
          | some v => Except.ok (some v)
          | none => Except.error ()

/-- Oscilloscope::MeasureDelay (lines 1151-1181) as a function of the
queried token and the raw query reply, with the same conventions as
measureParse. -/
def measureDelayParse (tok : List Char) (reply : Option (List Char)) : Except Unit (Option ℚ) :=
  match reply with
  | none => Except.ok none
  | some r =>
      match matchMEAD tok r with
      | none => Except.ok none
      | some num =>
          match stodQ num with
          | some v => Except.ok (some v)
          | none => Except.error ()

/-- Token of the generic phase measurement (MeasDelParam::PHA). -/
def phaTok : List Char := "PHA".toList

/-- A delay reply carrying the instrument's non-numeric invalid-measurement
token (the starred reply noted at Oscilloscope.cpp line 1173). -/
def invalidMeadReply : List Char := "C1-C2:MEAD PHA,****\n".toList

/-- An amplitude reply carrying the non-numeric invalid-measurement token. -/
def invalidPavaReply : List Char := "C1:PAVA AMPL,****\n".toList

/-- An arbitrary reply that matches no reply grammar at all. -/
def junkReply : List Char := "junk".toList

/-! ## Sweep session state machine (FreqResp.cpp lines 97-475)

Instrument readings enter the model as environment parameters: one MeasEnv
per MeasureFreq call (the call's auto-ranging loop and its measurements
condensed to the values it produces, since its return value is always
FRRET_SUCCESS).  The io component of a step records whether the step
performed any instrument I/O. -/

/-- Sweep_t (FreqResp.h line 23). -/
inductive SweepT
  | LOG
  | LIN

/-- TUNIT (FreqResp.h line 28). -/
inductive TUnitT
  | PHASE
  | DELAY

/-- Freq_Config (FreqResp.h lines 37-43). -/
structure FreqConfig where
  fStart : ℝ
  fStop : ℝ
  sweep : SweepT
  Npoints : ℕ

/-- FRS (FreqResp.h lines 81-90); the possibly-NaN doubles are Option ℝ. -/
structure FRSample where
  freq : ℝ
  magIn : Option ℝ
  magOut : Option ℝ
  dBgain : Option ℝ
  time : Option ℝ
  tunit : TUnitT

/-- Raw values the instruments deliver to one MeasureFreq call: the two
converged magnitude readings and the delay or phase reading, each possibly
NaN. -/
structure MeasEnv where
  magIn : Option ℝ
  magOut : Option ℝ
  time : Option ℝ

/-- Session state: the lifecycle flags, the frequency cursor f and the
accumulated data vector (FreqResp.h lines 122-143). -/
structure FRState where
  initialized : Bool
  completed : Bool
  f : ℝ
  data : List FRSample

/-- Result of one session operation: the FRRET status, the new session
state, and whether instrument I/O was performed. -/
structure StepOut where
  ret : ℤ
  st : FRState
  io : Bool

/-- FRRET_SUCCESS (FreqResp.h line 96). -/
def FRRET_SUCCESS : ℤ := 0

/-- FRRET_COMPLETE (FreqResp.h line 97). -/
def FRRET_COMPLETE : ℤ := 1

/-- FRRET_NOT_INITIALIZED (FreqResp.h line 98). -/
def FRRET_NOT_INITIALIZED : ℤ := -1

/-- FRRET_ALREADY_INITIALIZED (FreqResp.h line 99). -/
def FRRET_ALREADY_INITIALIZED : ℤ := -2

/-- FRRET_INVALID_FREQUENCY (FreqResp.h line 100). -/
def FRRET_INVALID_FREQUENCY : ℤ := -3

/-- FRRET_INVALID_STIM (FreqResp.h line 101). -/
def FRRET_INVALID_STIM : ℤ := -4

/-- FRRET_INVALID_TRIG (FreqResp.h line 102). -/
def FRRET_INVALID_TRIG : ℤ := -5

/-- FRRET_INIT_OSCILLOSCOPE (FreqResp.h line 103). -/
def FRRET_INIT_OSCILLOSCOPE : ℤ := -10

/-- FRRET_INIT_SINEGEN (FreqResp.h line 104). -/
def FRRET_INIT_SINEGEN : ℤ := -11

/-- FREQ_FUDGE constant (FreqResp.cpp line 35). -/
noncomputable def FREQ_FUDGE : ℝ := 1.001

/-- NaN-propagating scalar multiplication (avMeasure times a reading). -/
noncomputable def wmulR (a : ℝ) : Option ℝ → Option ℝ
  | some v => some (a * v)
  | none => none

/-- NaN-propagating decibel gain 20*log10(abs(out/in)) (FreqResp.cpp
lines 536-537). -/
noncomputable def wgainDb : Option ℝ → Option ℝ → Option ℝ
  | some o, some i => some (20 * Real.logb 10 |o / i|)
  | _, _ => none

/-- The FRS record MeasureFreq stores for a measurement at cursor f
(FreqResp.cpp lines 516-517 and 539-544). -/
noncomputable def mkSample (av : ℝ) (tu : TUnitT) (f : ℝ) (e : MeasEnv) : FRSample :=
  { freq := f
    magIn := wmulR av e.magIn
    magOut := wmulR av e.magOut
    dBgain := wgainDb (wmulR av e.magOut) (wmulR av e.magIn)
    time := e.time
    tunit := tu }

/-- MeasureNext (FreqResp.cpp lines 423-475): state check, one MeasureFreq
call (which always reports FRRET_SUCCESS), push of the sample, then the
frequency update and completion test of the sweep kind.  Npoints is an
unsigned int in the source, so the linear step divides by
(Npoints - 1) mod 2^32. -/
noncomputable def measureNext (cfg : FreqConfig) (av : ℝ) (tu : TUnitT) (e : MeasEnv)
    (s : FRState) : StepOut :=
  if s.initialized = false then ⟨FRRET_NOT_INITIALIZED, s, false⟩
  else if s.completed = true then ⟨FRRET_COMPLETE, s, false⟩
  else
    let sample := mkSample av tu s.f e
    let data1 := s.data ++ [sample]
    match cfg.sweep with
    | SweepT.LOG =>
        let f1 := s.f * Real.exp (Real.log 10 / (cfg.Npoints : ℝ))
        let comp : Bool := if f1 > FREQ_FUDGE * cfg.fStop then true else false
        ⟨if comp then FRRET_COMPLETE else FRRET_SUCCESS, ⟨true, comp, f1, data1⟩, true⟩
    | SweepT.LIN =>
        let f1 := s.f + (cfg.fStop - cfg.fStart) / (((cfg.Npoints + 2 ^ 32 - 1) % 2 ^ 32 : ℕ) : ℝ)
        let comp : Bool := if f1 > FREQ_FUDGE * cfg.fStop then true else false
        ⟨if comp then FRRET_COMPLETE else FRRET_SUCCESS, ⟨true, comp, f1, data1⟩, true⟩

/-- Parameter groups validated by Init; the NaN checks of the source are
unrepresentable in the ℝ model (they reject exactly like the value checks
and set the same codes). -/
structure InitConfig where
  freq : FreqConfig
  vstim : ℝ
  vdc : ℝ
  vTrig : ℝ

/-- The validation chain of Init (FreqResp.cpp lines 149-167): successive
failed checks each overwrite the return value, so the last failing group
wins. -/
noncomputable def validateRet (cfg : InitConfig) : ℤ :=
  let r1 := if cfg.freq.fStart ≤ 0 then FRRET_INVALID_FREQUENCY else FRRET_SUCCESS
  let r2 := if cfg.freq.fStop ≤ cfg.freq.fStart then FRRET_INVALID_FREQUENCY else r1
  if cfg.vstim ≤ 0 then FRRET_INVALID_STIM else r2

/-- Init (FreqResp.cpp lines 129-376) restricted to the session state:
the already-initialized check precedes everything; validation precedes all
instrument I/O; attachSG and attachOsc say whether the two attachments
succeed; on success the session becomes initialized with the cursor at the
start frequency, and the throwaway MeasureFreq call at lines 372-373
stores nothing in the session. -/
noncomputable def initStep (cfg : InitConfig) (attachSG attachOsc : Bool)
    (s : FRState) : StepOut :=
  if s.initialized = true then ⟨FRRET_ALREADY_INITIALIZED, s, false⟩
  else
    let v := validateRet cfg
    if v < FRRET_SUCCESS then ⟨v, s, false⟩
    else if attachSG = false then ⟨FRRET_INIT_SINEGEN, s, true⟩
    else if attachOsc = false then ⟨FRRET_INIT_OSCILLOSCOPE, s, true⟩
    else ⟨FRRET_SUCCESS, ⟨true, s.completed, cfg.freq.fStart, s.data⟩, true⟩

/-- Close (FreqResp.cpp lines 97-111): detaches both instruments, resets
the data set to empty, clears both flags, always returns FRRET_SUCCESS. -/
noncomputable def closeStep (s : FRState) : StepOut :=
  ⟨FRRET_SUCCESS, ⟨false, false, s.f, []⟩, true⟩

/-- The while loop of Sweep (FreqResp.cpp lines 400-407) with fuel:
repeats MeasureNext until the completed flag is set or a step fails,
returning the last status. -/
noncomputable def sweepLoopRun (cfg : FreqConfig) (av : ℝ) (tu : TUnitT)
    (envs : ℕ → MeasEnv) : ℕ → ℕ → ℤ → FRState → ℤ × FRState
  | 0, _, r, s => (r, s)
  | fuel + 1, i, r, s =>
      if s.completed = true then (r, s)
      else if (measureNext cfg av tu (envs i) s).ret < FRRET_SUCCESS then
        ((measureNext cfg av tu (envs i) s).ret, (measureNext cfg av tu (envs i) s).st)
      else
        sweepLoopRun cfg av tu envs fuel (i + 1) (measureNext cfg av tu (envs i) s).ret
          (measureNext cfg av tu (envs i) s).st

/-- Sweep (FreqResp.cpp lines 389-410): rejected when not initialized;
otherwise clears only the completed flag and resets the cursor (the data
vector is kept) before iterating MeasureNext. -/
noncomputable def sweepOp (cfg : FreqConfig) (av : ℝ) (tu : TUnitT)
    (envs : ℕ → MeasEnv) (fuel : ℕ) (s : FRState) : ℤ × FRState :=
  if s.initialized = false then (FRRET_NOT_INITIALIZED, s)
  else sweepLoopRun cfg av tu envs fuel 0 FRRET_SUCCESS ⟨s.initialized, false, cfg.fStart, s.data⟩

/-- Session state after k MeasureNext calls fed by the environment
stream. -/
noncomputable def runSteps (cfg : FreqConfig) (av : ℝ) (tu : TUnitT)
    (envs : ℕ → MeasEnv) (s0 : FRState) : ℕ → FRState
  | 0 => s0
  | k + 1 => (measureNext cfg av tu (envs k) (runSteps cfg av tu envs s0 k)).st

/-- The log-sweep frequency cursor sequence: the update of FreqResp.cpp
line 449 iterated from the start frequency. -/
noncomputable def logFreqAt (Np : ℕ) (f0 : ℝ) : ℕ → ℝ
  | 0 => f0
  | k + 1 => logFreqAt Np f0 k * Real.exp (Real.log 10 / (Np : ℝ))

/-- The one-decade sweep configuration of claim C5: logarithmic sweep from
1000 Hz to 10000 Hz at 10 points per decade. -/
noncomputable def decadeCfg : FreqConfig := ⟨1000, 10000, SweepT.LOG, 10⟩

/-- Freshly initialized session at the start of the decade sweep. -/
noncomputable def decadeS0 : FRState := ⟨true, false, 1000, []⟩

/-! ## Theorems for claims C1, C2, C4, C9 (first batch) -/

/-- Helper: the closest 1x-table index for vdiv = 10 V/div is the last
index, 13. -/
theorem closestIdx_1x_10 : closestIdx voltsTable1x 10 = 13 := by
  norm_num [closestIdx, voltsTable1x, closestScan, abs, max_def]

/-- Helper: the closest 1x-table index for vdiv = 2 mV/div is index 2. -/
theorem closestIdx_1x_2mV : closestIdx voltsTable1x (1/500) = 2 := by
  norm_num [closestIdx, voltsTable1x, closestScan, abs, max_def]

/-- Helper: adjusting by +1 from the top of the 1x table leaves the scale
at 10 V/div but reports an applied step of 1. -/
theorem adjustVolts_top_plus_one : adjustVolts voltsTable1x 10 1 = (10, 1) := by
  rw [adjustVolts, closestIdx_1x_10]
  norm_num [clampAdjust]
  simp [voltsTable1x]

/-- Claim C1 (status: code_bug).  Evaluation of the embedded
AdjustChannelVolts index arithmetic at the two inputs named by the claim:
requesting -3 from index 2 does clamp to index 0 and reports -2 as the
claim states, but requesting +1 from the last index 13 leaves the scale at
the last entry (10 V/div) while reporting an applied step of 1, not the 0
required by the claim and by the function's own documentation ("actual
adjustment steps, 0 if no adjustment was made"): the upper clamp at
Oscilloscope.cpp line 1054 subtracts (iChoose - nVoltagePairs) instead of
(iChoose - (nVoltagePairs - 1)). -/
theorem claim_C1_upper_clamp_divergence :
    adjustVolts voltsTable1x (1/500) (-3) = (1/2000, -2) ∧
    adjustVolts voltsTable1x 10 1 = (10, 1) ∧
    (adjustVolts voltsTable1x 10 1).2 ≠ 0 := by
  refine ⟨?_, adjustVolts_top_plus_one, ?_⟩
  · rw [adjustVolts, closestIdx_1x_2mV]
    norm_num [clampAdjust]
    simp [voltsTable1x]
  · rw [adjustVolts_top_plus_one]
    norm_num

/-- Claim C2 (status: confirmed).  For every real input p, CoercePhase p
lies in the interval 0 ≤ CoercePhase p < 360, differs from p by an integer
multiple of 360, and in particular CoercePhase 370 = 10 and
CoercePhase (-10) = 350. -/
theorem claim_C2_phase_normalization :
    (∀ p : ℝ, 0 ≤ CoercePhase p ∧ CoercePhase p < 360 ∧
      ∃ k : ℤ, p - CoercePhase p = 360 * k) ∧
    CoercePhase 370 = 10 ∧ CoercePhase (-10) = 350 := by
  refine ⟨fun p => ⟨?_, ?_, ⟨⌊p / 360⌋, by rw [CoercePhase]; ring⟩⟩, ?_, ?_⟩
  · have h := Int.fract_nonneg (p / 360)
    rw [Int.fract] at h
    rw [CoercePhase]
    nlinarith
  · have h := Int.fract_lt_one (p / 360)
    rw [Int.fract] at h
    rw [CoercePhase]
    nlinarith
  · have h : (⌊(370 : ℝ) / 360⌋ : ℤ) = 1 := by
      rw [Int.floor_eq_iff] <;> norm_num
    rw [CoercePhase, h]
    norm_num
  · have h : (⌊(-10 : ℝ) / 360⌋ : ℤ) = -1 := by
      rw [Int.floor_eq_iff] <;> norm_num
    rw [CoercePhase, h]
    norm_num

/-- Claim C4 (status: confirmed).  The auto-range classifier is a total
function assigning each non-NaN pair (peakToPeak, fullScale) exactly one of
the four adjustment requests, with the boundaries stated in the claim: +1
when pkpk > (1.000-0.0275)*fs, else -2 when pkpk < (0.200-0.0275)*fs, else
-1 when pkpk < (0.390-0.0275)*fs, else 0. -/
theorem claim_C4_classifier_total :
    ∀ p fs : ℚ,
      (classifyAdjust (some p) fs = 1 ∨ classifyAdjust (some p) fs = -2 ∨
        classifyAdjust (some p) fs = -1 ∨ classifyAdjust (some p) fs = 0) ∧
      (classifyAdjust (some p) fs = 1 ↔ p > (1.000 - 0.0275) * fs) ∧
      (classifyAdjust (some p) fs = -2 ↔
        ¬ p > (1.000 - 0.0275) * fs ∧ p < (0.200 - 0.0275) * fs) ∧
      (classifyAdjust (some p) fs = -1 ↔
        ¬ p > (1.000 - 0.0275) * fs ∧ ¬ p < (0.200 - 0.0275) * fs ∧
          p < (0.390 - 0.0275) * fs) ∧
      (classifyAdjust (some p) fs = 0 ↔
        ¬ p > (1.000 - 0.0275) * fs ∧ ¬ p < (0.200 - 0.0275) * fs ∧
          ¬ p < (0.390 - 0.0275) * fs) := by
  intro p fs
  rw [classifyAdjust, SEEK_MAX, SEEK_MID, SEEK_MIN, SEEK_MARGIN, wgt, wlt, wlt]
  by_cases h1 : (1.000 - 0.0275) * fs < p <;>
    by_cases h2 : p < (0.200 - 0.0275) * fs <;>
      by_cases h3 : p < (0.390 - 0.0275) * fs <;>
        simp [h1, h2, h3] <;> omega

/-- Claim C9 (status: confirmed).  A NaN peak-to-peak reading makes all
three threshold comparisons false, classifies as converged (adjustment 0),
sends no scale-change command, and on its own satisfies the
zero-adjustment component of the convergence loop's exit condition: with
NaN readings on both channels the loop exits on that iteration. -/
theorem claim_C9_nan_reading_converges :
    (∀ x : ℚ, wgt none x = false ∧ wlt none x = false) ∧
    (∀ pp : ℚ, classifyAdjust none pp = 0) ∧
    (∀ table : List ℚ, ∀ vdiv : ℚ, channelStep table vdiv none = (vdiv, 0, false)) ∧
    (∀ tIn tOut : List ℚ, ∀ s : LoopSt, (loopIter tIn tOut none none s).2 = true) := by
  refine ⟨fun x => ⟨rfl, rfl⟩, fun pp => rfl, fun table vdiv => rfl, fun tIn tOut s => ?_⟩
  simp [loopIter, channelStep, classifyAdjust, wgt, wlt]

/-- Helper: an overdriven reading at the top 1x scale requests +1 and the
buggy clamp reports an applied step of 1 while leaving the scale at
10 V/div. -/
theorem chStep_pinned : channelStep voltsTable1x 10 (some 100) = (10, 1, true) := by
  have hc : classifyAdjust (some 100) (10 * nVoltageDivisions) = 1 := by
    norm_num [classifyAdjust, wgt, SEEK_MAX, SEEK_MARGIN, nVoltageDivisions]
  simp only [channelStep, hc]
  norm_num [adjustVolts_top_plus_one]

/-- Helper: a 4 V peak-to-peak reading on the 1 V/div scale (full scale
8 V) classifies as converged. -/
theorem chStep_mid1V : channelStep voltsTable1x 1 (some 4) = (1, 0, false) := by
  norm_num [channelStep, classifyAdjust, wgt, wlt, SEEK_MAX, SEEK_MID, SEEK_MIN, SEEK_MARGIN,
    nVoltageDivisions]

/-- Helper: with the input channel pinned high at the top scale and the
output channel converged, one loop iteration leaves the state fixed and
does not exit. -/
theorem stuck_iter (n : ℕ) (s : LoopSt) (h : StuckInv s) :
    loopIter voltsTable1x voltsTable1x (pinnedHigh n) (midBand n) s = (⟨10, 1, 1, 0, 0⟩, false) := by
  obtain ⟨h1, h2, h3, h4, h5⟩ := h
  have hcond : ¬ (s.lastIn * 1 < 0 ∨ s.lastOut * 0 < 0) := by
    rw [h4]
    push_neg
    constructor <;> omega
  simp only [loopIter, pinnedHigh, midBand, h1, h2, chStep_pinned, chStep_mid1V]
  rw [if_neg hcond, h5]
  norm_num

/-- Helper: the pinned-high run never exits, whatever the fuel. -/
theorem stuck_run : ∀ fuel n s, StuckInv s →
    loopRun voltsTable1x voltsTable1x pinnedHigh midBand fuel n s = none := by
  intro fuel
  induction fuel with
  | zero => intro n s _; rfl
  | succ k ih =>
      intro n s h
      rw [loopRun, stuck_iter n s h]
      exact ih (n + 1) ⟨10, 1, 1, 0, 0⟩ ⟨rfl, rfl, by norm_num, rfl, rfl⟩

/-- Claim C6 counterexample (status: corrected).  The claim asserts the
auto-ranging loop terminates for every sequence of instrument readings.
It does not: with the input channel at the top 1x scale (10 V/div) and a
peak-to-peak reading pinned at 100 V while the output channel stays
converged, every iteration applies (and reports) adjustment +1 with no
sign flip, so neither exit condition is ever satisfied and the loop runs
forever. -/
theorem claim_C6_counterexample :
    ¬ loopTerminates voltsTable1x voltsTable1x pinnedHigh midBand stuckS0 := by
  rintro ⟨fuel, r, h⟩
  rw [stuck_run fuel 0 stuckS0 ⟨rfl, rfl, le_refl 0, rfl, rfl⟩] at h
  exact Option.noConfusion h

/-- Helper: when no iteration in the window exits, the fuelled loop
returns none. -/
theorem loopRun_none (tIn tOut : List ℚ) (pIn pOut : ℕ → Option ℚ) (s0 : LoopSt) :
    ∀ fuel k, (∀ m, k ≤ m → m < k + fuel → loopExitAt tIn tOut pIn pOut s0 m = false) →
      loopRun tIn tOut pIn pOut fuel k (loopStateAt tIn tOut pIn pOut s0 k) = none := by
  intro fuel
  induction fuel with
  | zero => intro k _; rfl
  | succ j ih =>
      intro k h
      rw [loopRun]
      have hk : loopExitAt tIn tOut pIn pOut s0 k = false := h k (le_refl k) (by omega)
      rw [loopExitAt] at hk
      simp only [hk, Bool.false_eq_true, if_false]
      have hst : (loopIter tIn tOut (pIn k) (pOut k) (loopStateAt tIn tOut pIn pOut s0 k)).1 =
          loopStateAt tIn tOut pIn pOut s0 (k + 1) := rfl
      rw [hst]
      exact ih (k + 1) (fun m h1 h2 => h m (by omega) (by omega))

/-- Helper: the fuelled loop stops exactly at the first exiting iteration
of its window. -/
theorem loopRun_first (tIn tOut : List ℚ) (pIn pOut : ℕ → Option ℚ) (s0 : LoopSt) :
    ∀ fuel k n, k ≤ n → n < k + fuel →
      loopExitAt tIn tOut pIn pOut s0 n = true →
      (∀ m, k ≤ m → m < n → loopExitAt tIn tOut pIn pOut s0 m = false) →
      loopRun tIn tOut pIn pOut fuel k (loopStateAt tIn tOut pIn pOut s0 k) =
        some (loopStateAt tIn tOut pIn pOut s0 (n + 1), n) := by
  intro fuel
  induction fuel with
  | zero => intro k n h1 h2; omega
  | succ j ih =>
      intro k n h1 h2 hexit hbefore
      rw [loopRun]
      rcases Nat.eq_or_lt_of_le h1 with heq | hlt
      · subst heq
        rw [loopExitAt] at hexit
        simp only [hexit, if_true]
        rfl
      · have hk : loopExitAt tIn tOut pIn pOut s0 k = false := hbefore k (le_refl k) hlt
        rw [loopExitAt] at hk
        simp only [hk, Bool.false_eq_true, if_false]
        have hst : (loopIter tIn tOut (pIn k) (pOut k) (loopStateAt tIn tOut pIn pOut s0 k)).1 =
            loopStateAt tIn tOut pIn pOut s0 (k + 1) := rfl
        rw [hst]
        exact ih (k + 1) n hlt (by omega) hexit (fun m hm1 hm2 => hbefore m (by omega) hm2)

/-- Claim C6 amended (status: corrected).  The auto-ranging loop exits
exactly on the first iteration whose computed adjustments are both zero or
whose hunting counter has reached 3 after the sign-flip check, and it
terminates precisely when such an iteration exists; reading sequences for
which no iteration satisfies the condition make it loop forever. -/
theorem claim_C6_loop_exit_condition :
    (∀ tIn tOut : List ℚ, ∀ pIn pOut : ℕ → Option ℚ, ∀ s0 : LoopSt,
        loopTerminates tIn tOut pIn pOut s0 ↔
          ∃ n, loopExitAt tIn tOut pIn pOut s0 n = true) ∧
    (∀ tIn tOut : List ℚ, ∀ pIn pOut : ℕ → Option ℚ, ∀ s0 : LoopSt, ∀ n fuel : ℕ,
        n < fuel →
        loopExitAt tIn tOut pIn pOut s0 n = true →
        (∀ m, m < n → loopExitAt tIn tOut pIn pOut s0 m = false) →
        loopRun tIn tOut pIn pOut fuel 0 s0 =
          some (loopStateAt tIn tOut pIn pOut s0 (n + 1), n)) := by
  constructor
  · intro tIn tOut pIn pOut s0
    constructor
    · rintro ⟨fuel, r, hrun⟩
      by_contra hno
      push_neg at hno
      have hall : ∀ m, 0 ≤ m → m < 0 + fuel → loopExitAt tIn tOut pIn pOut s0 m = false := by
        intro m _ _
        cases hb : loopExitAt tIn tOut pIn pOut s0 m
        · rfl
        · exact absurd hb (hno m)
      have := loopRun_none tIn tOut pIn pOut s0 fuel 0 hall
      rw [show loopStateAt tIn tOut pIn pOut s0 0 = s0 from rfl] at this
      rw [this] at hrun
      exact Option.noConfusion hrun
    · rintro ⟨n, hn⟩
      have hex : ∃ m, loopExitAt tIn tOut pIn pOut s0 m = true := ⟨n, hn⟩
      classical
      let n0 := Nat.find hex
      have hspec : loopExitAt tIn tOut pIn pOut s0 n0 = true := Nat.find_spec hex
      have hmin : ∀ m, m < n0 → loopExitAt tIn tOut pIn pOut s0 m = false := by
        intro m hm
        cases hb : loopExitAt tIn tOut pIn pOut s0 m
        · rfl
        · exact absurd hb (Nat.find_min hex hm)
      have := loopRun_first tIn tOut pIn pOut s0 (n0 + 1) 0 n0 (by omega) (by omega) hspec
        (fun m _ hm2 => hmin m hm2)
      rw [show loopStateAt tIn tOut pIn pOut s0 0 = s0 from rfl] at this
      exact ⟨n0 + 1, (loopStateAt tIn tOut pIn pOut s0 (n0 + 1), n0), this⟩
  · intro tIn tOut pIn pOut s0 n fuel hlt hexit hbefore
    have := loopRun_first tIn tOut pIn pOut s0 fuel 0 n (by omega) (by omega) hexit
      (fun m _ hm2 => hbefore m hm2)
    rw [show loopStateAt tIn tOut pIn pOut s0 0 = s0 from rfl] at this
    exact this

/-- Witness for claim C6's amended theorem: a run whose first iteration
already has both channels converged exits immediately with the loop state
unchanged. -/
theorem claim_C6_loop_exit_condition_witness :
    loopRun voltsTable1x voltsTable1x (fun _ => some 4) (fun _ => some 4) 1 0 ⟨1, 1, 0, 0, 0⟩ =
      some (⟨1, 1, 0, 0, 0⟩, 0) := by
  have hexit : loopExitAt voltsTable1x voltsTable1x (fun _ => some 4) (fun _ => some 4)
      ⟨1, 1, 0, 0, 0⟩ 0 = true := by
    simp only [loopExitAt, loopStateAt, loopIter, chStep_mid1V]
    norm_num
  have h := claim_C6_loop_exit_condition.2 voltsTable1x voltsTable1x
    (fun _ => some 4) (fun _ => some 4) ⟨1, 1, 0, 0, 0⟩ 0 1 (by norm_num) hexit
    (fun m hm => absurd hm (Nat.not_lt_zero m))
  rw [h]
  have hst : loopStateAt voltsTable1x voltsTable1x (fun _ => some 4) (fun _ => some 4)
      ⟨1, 1, 0, 0, 0⟩ 1 = ⟨1, 1, 0, 0, 0⟩ := by
    simp only [loopStateAt, loopIter, chStep_mid1V]
    norm_num
  rw [hst]

/-- Helper: removing the defaulted last element from the scanned range
does not change a first-match-with-default-last lookup. -/
theorem find_getD_dropLast (p : ℚ → Bool) :
    ∀ xs : List ℚ, xs ≠ [] →
      ((xs.dropLast).find? p).getD (xs.getLastD 0) = (xs.find? p).getD (xs.getLastD 0)
  | [], h => absurd rfl h
  | [a], _ => by
      cases hpa : p a <;> simp [List.find?, hpa]
  | a :: b :: t, _ => by
      have ih := find_getD_dropLast p (b :: t) (by simp)
      have hd : (a :: b :: t).dropLast = a :: (b :: t).dropLast := rfl
      have hl : (a :: b :: t).getLastD 0 = (b :: t).getLastD 0 := by
        simp [List.getLastD]
      rw [hd, hl]
      cases hpa : p a
      · rw [List.find?_cons_of_neg _ (by simp [hpa]), List.find?_cons_of_neg _ (by simp [hpa])]
        exact ih
      · rw [List.find?_cons_of_pos _ (by simp [hpa]), List.find?_cons_of_pos _ (by simp [hpa])]

/-- Helper: the loop of SetTimebase picks exactly the first table entry at
least as large as the target, defaulting to the largest entry. -/
theorem pickTdiv_eq_spec (t : ℚ) : pickTdiv t = pickTdivSpec t := by
  have h := find_getD_dropLast (fun s => decide (t ≤ s)) timeTable (by simp [timeTable])
  rw [pickTdiv, pickTdivSpec, ← h]
  cases hf : timeTable.dropLast.find? (fun s => decide (t ≤ s)) <;> simp [hf]

/-- Claim C3 (status: confirmed).  SetTimebase(tcapture, delay) selects
the first (and, the table being strictly increasing, smallest) timebase
entry whose seconds/division is at least tcapture / 14, or the largest
entry when none is, and returns the chosen seconds/division times 14; when
the underlying write fails it returns the NaN sentinel. -/
theorem claim_C3_timebase_selection :
    (∀ t : ℚ, pickTdiv t = pickTdivSpec t) ∧
    List.Chain' (fun a b : ℚ => a < b) timeTable ∧
    (∀ t : ℚ, setTimebaseCapture t true = some (pickTdivSpec (t / 14) * 14)) ∧
    (∀ t : ℚ, setTimebaseCapture t false = none) := by
  refine ⟨pickTdiv_eq_spec, ?_, fun t => ?_, fun t => ?_⟩
  · norm_num [timeTable, List.chain'_cons]
  · simp only [setTimebaseCapture, nTimeDivisions, pickTdiv_eq_spec, if_true]
  · simp [setTimebaseCapture]

/-- Claim C8 (status: confirmed).  State errors are rejected with their
distinct status and without side effects: MeasureNext before a successful
Init returns FRRET_NOT_INITIALIZED, MeasureNext after completion returns
FRRET_COMPLETE, Init on an already-initialized session returns
FRRET_ALREADY_INITIALIZED, and in each case the session state (flags,
frequency cursor, accumulated samples) is returned unchanged with no
instrument I/O performed. -/
theorem claim_C8_state_errors :
    (∀ (cfg : FreqConfig) (av : ℝ) (tu : TUnitT) (e : MeasEnv) (s : FRState),
        s.initialized = false →
        measureNext cfg av tu e s = ⟨FRRET_NOT_INITIALIZED, s, false⟩) ∧
    (∀ (cfg : FreqConfig) (av : ℝ) (tu : TUnitT) (e : MeasEnv) (s : FRState),
        s.initialized = true → s.completed = true →
        measureNext cfg av tu e s = ⟨FRRET_COMPLETE, s, false⟩) ∧
    (∀ (cfg : InitConfig) (aSG aOsc : Bool) (s : FRState),
        s.initialized = true →
        initStep cfg aSG aOsc s = ⟨FRRET_ALREADY_INITIALIZED, s, false⟩) := by
  refine ⟨fun cfg av tu e s h => ?_, fun cfg av tu e s h1 h2 => ?_,
    fun cfg aSG aOsc s h => ?_⟩
  · simp [measureNext, h]
  · simp [measureNext, h1, h2]
  · simp [initStep, h]

/-- Witness for claim C8: the three rejections evaluated at concrete
session states. -/
theorem claim_C8_state_errors_witness :
    measureNext decadeCfg 1 TUnitT.PHASE ⟨none, none, none⟩ ⟨false, false, 5, []⟩ =
      ⟨FRRET_NOT_INITIALIZED, ⟨false, false, 5, []⟩, false⟩ ∧
    measureNext decadeCfg 1 TUnitT.PHASE ⟨none, none, none⟩ ⟨true, true, 5, []⟩ =
      ⟨FRRET_COMPLETE, ⟨true, true, 5, []⟩, false⟩ ∧
    initStep ⟨decadeCfg, 1, 0, 0⟩ true true ⟨true, false, 5, []⟩ =
      ⟨FRRET_ALREADY_INITIALIZED, ⟨true, false, 5, []⟩, false⟩ :=
  ⟨claim_C8_state_errors.1 _ _ _ _ _ rfl,
   claim_C8_state_errors.2.1 _ _ _ _ _ rfl rfl,
   claim_C8_state_errors.2.2 _ _ _ _ rfl⟩

/-- Helper: every MeasureNext call leaves the previous data vector as a
prefix of the new one. -/
theorem measureNext_data_extends (cfg : FreqConfig) (av : ℝ) (tu : TUnitT) (e : MeasEnv)
    (s : FRState) : ∃ t, (measureNext cfg av tu e s).st.data = s.data ++ t := by
  by_cases h1 : s.initialized = false
  · exact ⟨[], by simp [measureNext, h1]⟩
  · by_cases h2 : s.completed = true
    · exact ⟨[], by simp [measureNext, h1, h2]⟩
    · refine ⟨[mkSample av tu s.f e], ?_⟩
      cases hc : cfg.sweep <;> simp [measureNext, h1, h2, hc]

/-- Helper: the Sweep while-loop only ever appends to the data vector. -/
theorem sweepLoopRun_data (cfg : FreqConfig) (av : ℝ) (tu : TUnitT) (envs : ℕ → MeasEnv) :
    ∀ (fuel i : ℕ) (r : ℤ) (s : FRState),
      ∃ t, (sweepLoopRun cfg av tu envs fuel i r s).2.data = s.data ++ t := by
  intro fuel
  induction fuel with
  | zero => intro i r s; exact ⟨[], by simp [sweepLoopRun]⟩
  | succ j ih =>
      intro i r s
      rw [sweepLoopRun]
      by_cases hc : s.completed = true
      · exact ⟨[], by simp [hc]⟩
      · rw [if_neg hc]
        by_cases hret : (measureNext cfg av tu (envs i) s).ret < FRRET_SUCCESS
        · obtain ⟨t0, h0⟩ := measureNext_data_extends cfg av tu (envs i) s
          exact ⟨t0, by rw [if_pos hret]; exact h0⟩
        · obtain ⟨t0, h0⟩ := measureNext_data_extends cfg av tu (envs i) s
          obtain ⟨t1, h1⟩ :=
            ih (i + 1) (measureNext cfg av tu (envs i) s).ret (measureNext cfg av tu (envs i) s).st
          refine ⟨t0 ++ t1, ?_⟩
          rw [if_neg hret, h1, h0, List.append_assoc]

/-- Claim C10 (status: confirmed).  The accumulated result sequence grows
by exactly one sample per measuring MeasureNext call and is never
shortened or rewritten by MeasureNext, Init or Sweep (a Sweep after
completion appends after the previous samples); only Close resets it to
empty, and Close returns FRRET_SUCCESS from every state. -/
theorem claim_C10_data_append_only :
    (∀ (cfg : FreqConfig) (av : ℝ) (tu : TUnitT) (e : MeasEnv) (s : FRState),
        s.initialized = true → s.completed = false →
        (measureNext cfg av tu e s).st.data = s.data ++ [mkSample av tu s.f e]) ∧
    (∀ (cfg : FreqConfig) (av : ℝ) (tu : TUnitT) (e : MeasEnv) (s : FRState),
        ∃ t, (measureNext cfg av tu e s).st.data = s.data ++ t) ∧
    (∀ (cfg : InitConfig) (aSG aOsc : Bool) (s : FRState),
        (initStep cfg aSG aOsc s).st.data = s.data) ∧
    (∀ (cfg : FreqConfig) (av : ℝ) (tu : TUnitT) (envs : ℕ → MeasEnv) (fuel : ℕ) (s : FRState),
        ∃ t, (sweepOp cfg av tu envs fuel s).2.data = s.data ++ t) ∧
    (∀ s : FRState, closeStep s = ⟨FRRET_SUCCESS, ⟨false, false, s.f, []⟩, true⟩) := by
  refine ⟨fun cfg av tu e s h1 h2 => ?_, measureNext_data_extends, fun cfg aSG aOsc s => ?_,
    fun cfg av tu envs fuel s => ?_, fun s => rfl⟩
  · cases hc : cfg.sweep <;> simp [measureNext, h1, h2, hc]
  · simp only [initStep]
    split_ifs <;> rfl
  · rw [sweepOp]
    by_cases hinit : s.initialized = false
    · exact ⟨[], by rw [if_pos hinit, List.append_nil]⟩
    · rw [if_neg hinit]
      exact sweepLoopRun_data cfg av tu envs fuel 0 FRRET_SUCCESS _

/-- Witness for claim C10: one measuring step on a fresh decade session
appends exactly its sample, and Close resets a session carrying data. -/
theorem claim_C10_data_append_only_witness :
    (measureNext decadeCfg 1 TUnitT.PHASE ⟨none, none, none⟩ ⟨true, false, 1000, []⟩).st.data =
      [mkSample 1 TUnitT.PHASE 1000 ⟨none, none, none⟩] ∧
    closeStep ⟨true, true, 5, [mkSample 1 TUnitT.PHASE 1000 ⟨none, none, none⟩]⟩ =
      ⟨FRRET_SUCCESS, ⟨false, false, 5, []⟩, true⟩ :=
  ⟨claim_C10_data_append_only.1 decadeCfg 1 TUnitT.PHASE ⟨none, none, none⟩
      ⟨true, false, 1000, []⟩ rfl rfl,
   claim_C10_data_append_only.2.2.2.2 _⟩

/-- Claim C7 (status: confirmed).  Any instrument reply to a measurement
or delay query that does not match the fixed reply grammar, including the
non-numeric invalid-measurement token and a failed query, makes Measure
and MeasureDelay return the NaN sentinel rather than raising an exception;
and a sweep step's status and frequency progression are entirely
independent of the measured sample values, so a NaN sample still yields
success or completion by the frequency-progression rule alone. -/
theorem claim_C7_parse_failure_nan :
    (∀ r : List Char, matchPAVA r = none → measureParse (some r) = Except.ok none) ∧
    measureParse none = Except.ok none ∧
    (∀ tok r : List Char, matchMEAD tok r = none →
        measureDelayParse tok (some r) = Except.ok none) ∧
    (∀ tok : List Char, measureDelayParse tok none = Except.ok none) ∧
    measureParse (some invalidPavaReply) = Except.ok none ∧
    measureDelayParse phaTok (some invalidMeadReply) = Except.ok none ∧
    (∀ (cfg : FreqConfig) (av : ℝ) (tu : TUnitT) (e1 e2 : MeasEnv) (s : FRState),
        (measureNext cfg av tu e1 s).ret = (measureNext cfg av tu e2 s).ret ∧
        (measureNext cfg av tu e1 s).st.f = (measureNext cfg av tu e2 s).st.f ∧
        (measureNext cfg av tu e1 s).st.completed = (measureNext cfg av tu e2 s).st.completed) := by
  refine ⟨fun r h => ?_, rfl, fun tok r h => ?_, fun tok => rfl, ?_, ?_,
    fun cfg av tu e1 e2 s => ?_⟩
  · simp [measureParse, h]
  · simp [measureDelayParse, h]
  · rfl
  · rfl
  · by_cases h1 : s.initialized = false
    · simp [measureNext, h1]
    · by_cases h2 : s.completed = true
      · simp [measureNext, h1, h2]
      · cases hc : cfg.sweep <;> simp [measureNext, h1, h2, hc]

/-- Witness for claim C7: a reply matching no grammar parses to the NaN
sentinel. -/
theorem claim_C7_parse_failure_nan_witness :
    measureParse (some junkReply) = Except.ok none :=
  claim_C7_parse_failure_nan.1 junkReply (by decide)

/-- Helper: the per-step factor exp(ln 10 / Np) of the log sweep is the
Np-th root of a decade. -/
theorem exp_log_div_eq_rpow (Np : ℕ) :
    Real.exp (Real.log 10 / (Np : ℝ)) = (10 : ℝ) ^ ((1 : ℝ) / (Np : ℝ)) := by
  rw [Real.rpow_def_of_pos (by norm_num : (0:ℝ) < 10)]
  ring_nf

/-- Helper: the tenth root of ten exceeds the 1.001 fudge factor. -/
theorem tenthRoot_gt : (1.001 : ℝ) < (10 : ℝ) ^ ((1 : ℝ) / 10) := by
  by_contra h
  push_neg at h
  have h0 : (0 : ℝ) ≤ (10 : ℝ) ^ ((1 : ℝ) / 10) := Real.rpow_nonneg (by norm_num) _
  have hp : ((10 : ℝ) ^ ((1 : ℝ) / 10)) ^ (10 : ℕ) ≤ (1.001 : ℝ) ^ (10 : ℕ) :=
    pow_le_pow_left₀ h0 h 10
  have he : ((10 : ℝ) ^ ((1 : ℝ) / 10)) ^ (10 : ℕ) = 10 := by
    rw [← Real.rpow_natCast ((10 : ℝ) ^ ((1 : ℝ) / 10)) 10, ← Real.rpow_mul (by norm_num)]
    norm_num
  rw [he] at hp
  norm_num at hp

/-- Helper: closed form of the decade sweep's frequency cursor. -/
theorem logFreqAt_closed (k : ℕ) : logFreqAt 10 1000 k = 1000 * (10 : ℝ) ^ ((k : ℝ) / 10) := by
  induction k with
  | zero => simp [logFreqAt]
  | succ n ih =>
      rw [logFreqAt, ih, exp_log_div_eq_rpow]
      rw [mul_assoc, ← Real.rpow_add (by norm_num : (0:ℝ) < 10)]
      push_cast
      ring_nf

/-- Helper: during the first eleven points the cursor stays at or below
the stop frequency. -/
theorem logFreqAt_le (k : ℕ) (h : k ≤ 10) : logFreqAt 10 1000 k ≤ 10000 := by
  rw [logFreqAt_closed]
  have hle : ((k : ℝ) / 10) ≤ 1 := by
    have : (k : ℝ) ≤ 10 := by exact_mod_cast h
    linarith
  have := (Real.rpow_le_rpow_left_iff (by norm_num : (1:ℝ) < 10)).mpr hle
  rw [Real.rpow_one] at this
  nlinarith

/-- Helper: the twelfth cursor value exceeds the fudged stop frequency. -/
theorem logFreqAt_gt11 : logFreqAt 10 1000 11 > 1.001 * 10000 := by
  rw [logFreqAt_closed]
  rw [show (((11 : ℕ) : ℝ) / 10) = 1 + (1 : ℝ) / 10 by push_cast; norm_num]
  rw [Real.rpow_add (by norm_num : (0:ℝ) < 10), Real.rpow_one]
  nlinarith [tenthRoot_gt]

/-- Helper: the eleventh point lands exactly on the stop frequency. -/
theorem logFreqAt_ten : logFreqAt 10 1000 10 = 10000 := by
  rw [logFreqAt_closed]
  norm_num

/-- Helper: state invariant of the decade sweep over its first eleven
steps: still running, cursor at the k-th frequency, data holding the first
k samples. -/
theorem decade_run (av : ℝ) (tu : TUnitT) (envs : ℕ → MeasEnv) :
    ∀ k, k ≤ 10 → runSteps decadeCfg av tu envs decadeS0 k =
      ⟨true, false, logFreqAt 10 1000 k,
        (List.range k).map (fun i => mkSample av tu (logFreqAt 10 1000 i) (envs i))⟩ := by
  intro k
  induction k with
  | zero => intro _; rfl
  | succ n ih =>
      intro hn
      rw [runSteps, ih (by omega)]
      have hcomp : ¬ (logFreqAt 10 1000 n * Real.exp (Real.log 10 / ((10 : ℕ) : ℝ)) >
          FREQ_FUDGE * (10000 : ℝ)) := by
        have hle := logFreqAt_le (n + 1) (by omega)
        rw [logFreqAt] at hle
        rw [FREQ_FUDGE]
        nlinarith
      simp only [measureNext, decadeCfg]
      norm_num
      push_cast at hcomp
      refine ⟨le_of_not_lt hcomp, ?_, ?_⟩
      · conv_rhs => rw [logFreqAt]
        norm_num
      · rw [List.range_succ, List.map_append]
        rfl

/-- Helper: explicit form of one measuring MeasureNext step on a running
log sweep. -/
theorem measureNext_log (cfg : FreqConfig) (av : ℝ) (tu : TUnitT) (e : MeasEnv) (s : FRState)
    (h1 : s.initialized = true) (h2 : s.completed = false) (hsw : cfg.sweep = SweepT.LOG) :
    measureNext cfg av tu e s =
      ⟨if s.f * Real.exp (Real.log 10 / (cfg.Npoints : ℝ)) > FREQ_FUDGE * cfg.fStop
          then FRRET_COMPLETE else FRRET_SUCCESS,
        ⟨true,
          if s.f * Real.exp (Real.log 10 / (cfg.Npoints : ℝ)) > FREQ_FUDGE * cfg.fStop
            then true else false,
          s.f * Real.exp (Real.log 10 / (cfg.Npoints : ℝ)),
          s.data ++ [mkSample av tu s.f e]⟩,
        true⟩ := by
  rcases cfg with ⟨fStart, fStop, sw, Np⟩
  simp only at hsw
  subst hsw
  unfold measureNext
  rw [if_neg (by rw [h1]; exact fun hx => Bool.noConfusion hx),
    if_neg (by rw [h2]; exact fun hx => Bool.noConfusion hx)]
  dsimp only
  by_cases hcond : s.f * Real.exp (Real.log 10 / (Np : ℝ)) > FREQ_FUDGE * fStop
  · rw [if_pos hcond, if_pos hcond]
    rfl
  · rw [if_neg hcond, if_neg hcond]
    rfl

/-- Witness-support helper: one measuring step of the decade sweep with
index below ten returns FRRET_SUCCESS. -/
theorem decade_step_success (av : ℝ) (tu : TUnitT) (envs : ℕ → MeasEnv) (k : ℕ) (hk : k < 10) :
    (measureNext decadeCfg av tu (envs k)
        (runSteps decadeCfg av tu envs decadeS0 k)).ret = FRRET_SUCCESS := by
  rw [decade_run av tu envs k (by omega),
    measureNext_log decadeCfg av tu (envs k) _ rfl rfl rfl]
  dsimp only [decadeCfg]
  have hle := logFreqAt_le (k + 1) (by omega)
  rw [logFreqAt] at hle
  rw [if_neg ?hng]
  case hng =>
    rw [FREQ_FUDGE]
    intro hgt
    nlinarith

/-- Helper: the eleventh measuring step of the decade sweep reports
completion. -/
theorem decade_step_complete (av : ℝ) (tu : TUnitT) (envs : ℕ → MeasEnv) :
    (measureNext decadeCfg av tu (envs 10)
        (runSteps decadeCfg av tu envs decadeS0 10)).ret = FRRET_COMPLETE := by
  rw [decade_run av tu envs 10 (le_refl 10),
    measureNext_log decadeCfg av tu (envs 10) _ rfl rfl rfl]
  dsimp only [decadeCfg]
  have hgt := logFreqAt_gt11
  rw [show (11 : ℕ) = 10 + 1 from rfl, logFreqAt] at hgt
  rw [if_pos ?hg]
  case hg =>
    rw [FREQ_FUDGE]
    exact hgt

/-- Helper: session state after the eleven measuring calls of the decade
sweep. -/
theorem decade_state_11 (av : ℝ) (tu : TUnitT) (envs : ℕ → MeasEnv) :
    runSteps decadeCfg av tu envs decadeS0 11 =
      ⟨true, true, logFreqAt 10 1000 11,
        (List.range 11).map (fun i => mkSample av tu (logFreqAt 10 1000 i) (envs i))⟩ := by
  rw [show (11 : ℕ) = 10 + 1 from rfl, runSteps, decade_run av tu envs 10 (le_refl 10),
    measureNext_log decadeCfg av tu (envs 10) _ rfl rfl rfl]
  dsimp only [decadeCfg]
  have hgt := logFreqAt_gt11
  rw [show (11 : ℕ) = 10 + 1 from rfl, logFreqAt] at hgt
  rw [if_pos ?hg2]
  case hg2 =>
    rw [FREQ_FUDGE]
    exact hgt
  simp only [FRState.mk.injEq]
  refine ⟨trivial, trivial, ?_, ?_⟩
  · conv_rhs => rw [logFreqAt]
  · conv_rhs => rw [List.range_succ, List.map_append]
    rfl

/-- Claim C5 (status: confirmed).  A successful MeasureNext on a running
logarithmic sweep multiplies the frequency cursor by 10^(1/pointCount) and
flags completion (status FRRET_COMPLETE rather than FRRET_SUCCESS) exactly
when the new frequency exceeds 1.001 times the stop frequency; the decade
sweep 1000 Hz to 10000 Hz at 10 points per decade measures exactly the
eleven frequencies 1000*10^(k/10) for k = 0..10 (one full decade with
successive ratios 10^(1/10) and final point 10000 Hz), its first ten steps
reporting success, its eleventh reporting completion, and the session
being flagged completed afterwards. -/
theorem claim_C5_log_sweep_decade :
    (∀ (cfg : FreqConfig) (av : ℝ) (tu : TUnitT) (e : MeasEnv) (s : FRState),
        s.initialized = true → s.completed = false → cfg.sweep = SweepT.LOG →
        (measureNext cfg av tu e s).st.f =
          s.f * (10 : ℝ) ^ ((1 : ℝ) / (cfg.Npoints : ℝ)) ∧
        ((measureNext cfg av tu e s).st.completed = true ↔
          (measureNext cfg av tu e s).st.f > FREQ_FUDGE * cfg.fStop) ∧
        ((measureNext cfg av tu e s).ret = FRRET_COMPLETE ↔
          (measureNext cfg av tu e s).st.f > FREQ_FUDGE * cfg.fStop) ∧
        ((measureNext cfg av tu e s).ret = FRRET_COMPLETE ∨
          (measureNext cfg av tu e s).ret = FRRET_SUCCESS)) ∧
    (∀ (av : ℝ) (tu : TUnitT) (envs : ℕ → MeasEnv),
        (∀ k, k < 10 →
          (measureNext decadeCfg av tu (envs k)
              (runSteps decadeCfg av tu envs decadeS0 k)).ret = FRRET_SUCCESS) ∧
        (measureNext decadeCfg av tu (envs 10)
            (runSteps decadeCfg av tu envs decadeS0 10)).ret = FRRET_COMPLETE ∧
        (runSteps decadeCfg av tu envs decadeS0 11).completed = true ∧
        (runSteps decadeCfg av tu envs decadeS0 11).data.map FRSample.freq =
          (List.range 11).map (logFreqAt 10 1000)) ∧
    (∀ k : ℕ, logFreqAt 10 1000 (k + 1) =
        logFreqAt 10 1000 k * (10 : ℝ) ^ ((1 : ℝ) / 10)) ∧
    logFreqAt 10 1000 10 = 10000 := by
  refine ⟨fun cfg av tu e s h1 h2 hsweep => ?_,
    fun av tu envs => ⟨fun k hk => decade_step_success av tu envs k hk,
      decade_step_complete av tu envs, ?_, ?_⟩,
    fun k => ?_, logFreqAt_ten⟩
  · rw [measureNext_log cfg av tu e s h1 h2 hsweep]
    dsimp only
    by_cases hcond : s.f * Real.exp (Real.log 10 / (cfg.Npoints : ℝ)) > FREQ_FUDGE * cfg.fStop
    · rw [if_pos hcond, if_pos hcond]
      exact ⟨by rw [exp_log_div_eq_rpow], ⟨fun _ => hcond, fun _ => rfl⟩,
        ⟨fun _ => hcond, fun _ => rfl⟩, Or.inl rfl⟩
    · rw [if_neg hcond, if_neg hcond]
      exact ⟨by rw [exp_log_div_eq_rpow],
        ⟨fun hx => Bool.noConfusion hx, fun hx => absurd hx hcond⟩,
        ⟨fun hx => absurd hx (by norm_num [FRRET_SUCCESS, FRRET_COMPLETE]),
          fun hx => absurd hx hcond⟩, Or.inr rfl⟩
  · rw [decade_state_11]
  · rw [decade_state_11]
    dsimp only
    rw [List.map_map]
    rfl
  · conv_lhs => rw [logFreqAt]
    rw [exp_log_div_eq_rpow]
    norm_num

/-- Witness for claim C5: the frequency-multiplication rule applied to the
freshly initialized decade session, and its first step reporting
success. -/
theorem claim_C5_log_sweep_decade_witness :
    (measureNext decadeCfg 1 TUnitT.PHASE ⟨none, none, none⟩ decadeS0).st.f =
      decadeS0.f * (10 : ℝ) ^ ((1 : ℝ) / (decadeCfg.Npoints : ℝ)) ∧
    (measureNext decadeCfg 1 TUnitT.PHASE ⟨none, none, none⟩
        (runSteps decadeCfg 1 TUnitT.PHASE (fun _ => ⟨none, none, none⟩) decadeS0 0)).ret =
      FRRET_SUCCESS :=
  ⟨(claim_C5_log_sweep_decade.1 decadeCfg 1 TUnitT.PHASE ⟨none, none, none⟩ decadeS0
      rfl rfl rfl).1,
   (claim_C5_log_sweep_decade.2.1 1 TUnitT.PHASE (fun _ => ⟨none, none, none⟩)).1 0
      (by norm_num)⟩
